import Mathlib

/-
  Verification of korginc/AppStoreConnectTools against its specification.

  The development shallowly embeds the Python sources:
    - createPricePointID.py : base64url_encode, base64url_decode,
      encode_json_to_base64, main (the CLI entry point)
    - updatePrice.py : get_item_type_definitions, get_price_point_id,
      prepare_price_data, update_price_schedule
  Bytes are modelled as Nat (with explicit < 256 bounds where relevant),
  byte strings as List Nat, and text as Lean String / List Char.
-/

/-! ## Base64url layer (createPricePointID.py, lines 6-11) -/

/-- The RFC 4648 base64url alphabet, in index order.  This is the alphabet
used by the Python function base64.urlsafe_b64encode. -/
def b64chars : List Char :=
  "ABCDEFGHIJKLMNOPQRSTUVWXYZabcdefghijklmnopqrstuvwxyz0123456789-_".data

/-- The alphabet character for a 6-bit value. -/
def b64c (n : Nat) : Char := b64chars.getD n 'A'

/-- Value of one character under the Python decoder.  urlsafe_b64decode first
translates the characters MINUS and UNDERSCORE to PLUS and SLASH and then uses
the standard table, so all four of these characters carry a value here. -/
def b64val (c : Char) : Option Nat :=
  if 'A' ≤ c ∧ c ≤ 'Z' then some (c.toNat - 65)
  else if 'a' ≤ c ∧ c ≤ 'z' then some (c.toNat - 97 + 26)
  else if '0' ≤ c ∧ c ≤ '9' then some (c.toNat - 48 + 52)
  else if c = '+' ∨ c = '-' then some 62
  else if c = '/' ∨ c = '_' then some 63
  else none

/-- Byte-level base64url encoding with the PAD characters already stripped:
this is exactly base64.urlsafe_b64encode(data).rstrip(PAD) from
createPricePointID.py line 7, since stripping the padding of the standard
encoder leaves 2 characters for a trailing 1-byte group and 3 characters for
a trailing 2-byte group. -/
def base64url_encode_bytes : List Nat → List Char
  | [] => []
  | [a] => [b64c (a / 4), b64c (a % 4 * 16)]
  | [a, b] => [b64c (a / 4), b64c (a % 4 * 16 + b / 16), b64c (b % 16 * 4)]
  | a :: b :: c :: rest =>
      b64c (a / 4) :: b64c (a % 4 * 16 + b / 16) :: b64c (b % 16 * 4 + c / 64) ::
        b64c (c % 64) :: base64url_encode_bytes rest

/-- Models base64url_encode from createPricePointID.py (line 6-7). -/
def base64url_encode (data : List Nat) : String :=
  String.mk (base64url_encode_bytes data)

/-- The padding that base64url_decode re-adds: PAD repeated (-len % 4) times,
written here with Nat arithmetic as (4 - len % 4) % 4. -/
def b64pad (len : Nat) : List Char := List.replicate ((4 - len % 4) % 4) '='

/-- The decoding loop of the CPython function binascii.a2b_base64 in its
default non-strict mode, which base64.urlsafe_b64decode calls: characters
outside the alphabet are skipped; a PAD character is ignored before two data
characters of a quad and finishes the decode once the quad is completed by
padding; a dangling quad position at the end of input is an error (none). -/
def a2b_loop : List Char → Nat → Nat → Nat → Option (List Nat)
  | [], qp, _, _ => if qp = 0 then some [] else none
  | ch :: rest, qp, left, pads =>
    if ch = '=' then
      if 2 ≤ qp then
        if 4 ≤ qp + pads + 1 then some []
        else a2b_loop rest qp left (pads + 1)
      else a2b_loop rest qp left pads
    else
      match b64val ch with
      | none => a2b_loop rest qp left pads
      | some v =>
        if qp = 0 then a2b_loop rest 1 v 0
        else if qp = 1 then
          Option.map (fun bs => (left * 4 + v / 16) :: bs) (a2b_loop rest 2 (v % 16) 0)
        else if qp = 2 then
          Option.map (fun bs => (left * 16 + v / 4) :: bs) (a2b_loop rest 3 (v % 4) 0)
        else
          Option.map (fun bs => (left * 64 + v) :: bs) (a2b_loop rest 0 0 0)

/-- Models base64url_decode from createPricePointID.py (lines 9-11): re-add
(-len % 4) PAD characters, then decode as base64.urlsafe_b64decode does. -/
def base64url_decode (data : String) : Option (List Nat) :=
  a2b_loop (data.data ++ b64pad data.length) 0 0 0

theorem b64val_b64c : ∀ n < 64, b64val (b64c n) = some n := by decide

theorem b64c_ne_pad_char : ∀ n < 64, b64c n ≠ '=' := by decide

theorem b64c_mem : ∀ n < 64, b64c n ∈ b64chars := by decide

theorem a2b_loop_cons0 (v : Nat) (hv : v < 64) (L : List Char) (left pads : Nat) :
    a2b_loop (b64c v :: L) 0 left pads = a2b_loop L 1 v 0 := by
  simp [a2b_loop, b64c_ne_pad_char v hv, b64val_b64c v hv]

theorem a2b_loop_cons1 (v : Nat) (hv : v < 64) (L : List Char) (left pads : Nat) :
    a2b_loop (b64c v :: L) 1 left pads =
      Option.map (fun bs => (left * 4 + v / 16) :: bs) (a2b_loop L 2 (v % 16) 0) := by
  simp [a2b_loop, b64c_ne_pad_char v hv, b64val_b64c v hv]

theorem a2b_loop_cons2 (v : Nat) (hv : v < 64) (L : List Char) (left pads : Nat) :
    a2b_loop (b64c v :: L) 2 left pads =
      Option.map (fun bs => (left * 16 + v / 4) :: bs) (a2b_loop L 3 (v % 4) 0) := by
  simp [a2b_loop, b64c_ne_pad_char v hv, b64val_b64c v hv]

theorem a2b_loop_cons3 (v : Nat) (hv : v < 64) (L : List Char) (left pads : Nat) :
    a2b_loop (b64c v :: L) 3 left pads =
      Option.map (fun bs => (left * 64 + v) :: bs) (a2b_loop L 0 0 0) := by
  simp [a2b_loop, b64c_ne_pad_char v hv, b64val_b64c v hv]

theorem a2b_loop_pad2 (L : List Char) (left : Nat) :
    a2b_loop ('=' :: '=' :: L) 2 left 0 = some [] := by
  simp [a2b_loop]

theorem a2b_loop_pad1 (L : List Char) (left : Nat) :
    a2b_loop ('=' :: L) 3 left 0 = some [] := by
  simp [a2b_loop]

theorem b64pad_congr {m n : Nat} (h : m % 4 = n % 4) : b64pad m = b64pad n := by
  simp [b64pad, h]

/-- Decoding with re-added padding inverts the padding-stripped encoder, for
byte inputs. -/
theorem a2b_of_encode : ∀ d : List Nat, (∀ x ∈ d, x < 256) →
    a2b_loop (base64url_encode_bytes d ++
      b64pad (base64url_encode_bytes d).length) 0 0 0 = some d
  | [], _ => by simp [base64url_encode_bytes, b64pad, a2b_loop]
  | [a], hd => by
      have ha : a < 256 := hd a (by simp)
      have h1 : a / 4 < 64 := by omega
      have h2 : a % 4 * 16 < 64 := by omega
      show a2b_loop (b64c (a / 4) :: b64c (a % 4 * 16) :: '=' :: '=' :: []) 0 0 0 =
        some [a]
      rw [a2b_loop_cons0 _ h1, a2b_loop_cons1 _ h2, a2b_loop_pad2]
      simp only [Option.map_some', Option.some.injEq, List.cons.injEq, and_true]
      omega
  | [a, b], hd => by
      have ha : a < 256 := hd a (by simp)
      have hb : b < 256 := hd b (by simp)
      have h1 : a / 4 < 64 := by omega
      have h2 : a % 4 * 16 + b / 16 < 64 := by omega
      have h3 : b % 16 * 4 < 64 := by omega
      show a2b_loop (b64c (a / 4) :: b64c (a % 4 * 16 + b / 16) ::
        b64c (b % 16 * 4) :: '=' :: []) 0 0 0 = some [a, b]
      rw [a2b_loop_cons0 _ h1, a2b_loop_cons1 _ h2, a2b_loop_cons2 _ h3, a2b_loop_pad1]
      simp only [Option.map_some', Option.some.injEq, List.cons.injEq, and_true]
      omega
  | a :: b :: c :: rest, hd => by
      have ha : a < 256 := hd a (by simp)
      have hb : b < 256 := hd b (by simp)
      have hc : c < 256 := hd c (by simp)
      have ih := a2b_of_encode rest (fun x hx => hd x (by simp [hx]))
      have h1 : a / 4 < 64 := by omega
      have h2 : a % 4 * 16 + b / 16 < 64 := by omega
      have h3 : b % 16 * 4 + c / 64 < 64 := by omega
      have h4 : c % 64 < 64 := by omega
      have hlen : (base64url_encode_bytes (a :: b :: c :: rest)).length % 4 =
          (base64url_encode_bytes rest).length % 4 := by
        simp only [base64url_encode_bytes, List.length_cons]
        omega
      rw [b64pad_congr hlen]
      show a2b_loop (b64c (a / 4) :: b64c (a % 4 * 16 + b / 16) ::
        b64c (b % 16 * 4 + c / 64) :: b64c (c % 64) ::
        (base64url_encode_bytes rest ++ b64pad (base64url_encode_bytes rest).length))
        0 0 0 = some (a :: b :: c :: rest)
      rw [a2b_loop_cons0 _ h1, a2b_loop_cons1 _ h2, a2b_loop_cons2 _ h3,
        a2b_loop_cons3 _ h4, ih]
      simp only [Option.map_some', Option.some.injEq, List.cons.injEq,
        eq_self_iff_true, and_true]
      omega

/-- Round trip at the level of the two functions of createPricePointID.py. -/
theorem base64url_decode_encode (d : List Nat) (hd : ∀ x ∈ d, x < 256) :
    base64url_decode (base64url_encode d) = some d := by
  have h : (base64url_encode d).data = base64url_encode_bytes d := rfl
  have hl : (base64url_encode d).length = (base64url_encode_bytes d).length := rfl
  rw [base64url_decode, h, hl]
  exact a2b_of_encode d hd

example : base64url_decode "!" = some [] := by decide
example : base64url_decode (base64url_encode [1, 2, 3, 4]) = some [1, 2, 3, 4] := by decide
example : base64url_encode [104, 105] = "aGk" := by decide

/-! ## UTF-8 layer

The Python source encodes the JSON text with str.encode applied to the
string and the name of the utf-8 codec, and the decode direction of the
specification decodes the bytes with the same codec. -/

/-- UTF-8 encoding of one code point, by the standard 1/2/3/4 byte shapes. -/
def utf8EncodeChar (n : Nat) : List Nat :=
  if n < 128 then [n]
  else if n < 2048 then [192 + n / 64, 128 + n % 64]
  else if n < 65536 then [224 + n / 4096, 128 + n / 64 % 64, 128 + n % 64]
  else [240 + n / 262144, 128 + n / 4096 % 64, 128 + n / 64 % 64, 128 + n % 64]

/-- Models str.encode with the utf-8 codec on a Python text value. -/
def utf8Encode (cs : List Char) : List Nat :=
  cs.flatMap (fun c => utf8EncodeChar c.toNat)

/-- Modelled from the spec: UTF-8 decoding of the decoded byte sequence (the
source only decodes base64; the UTF-8 and JSON decode direction is described
by the specification).  One byte is consumed per step: need counts the
continuation bytes still expected, acc accumulates the code point so far and
mn is the smallest code point the current sequence length may legally
produce; a completed code point must lie in [mn, 1114112) and outside the
surrogate block, continuation bytes must lie in [128, 192). -/
def utf8_loop : List Nat → Nat → Nat → Nat → Option (List Char)
  | [], need, _, _ => if need = 0 then some [] else none
  | b :: rest, need, acc, mn =>
    if need = 0 then
      if b < 128 then Option.map (fun cs => Char.ofNat b :: cs) (utf8_loop rest 0 0 0)
      else if b < 194 then none
      else if b < 224 then utf8_loop rest 1 (b - 192) 128
      else if b < 240 then utf8_loop rest 2 (b - 224) 2048
      else if b < 245 then utf8_loop rest 3 (b - 240) 65536
      else none
    else
      if 128 ≤ b ∧ b < 192 then
        if need = 1 then
          if mn ≤ acc * 64 + (b - 128) ∧ acc * 64 + (b - 128) < 1114112 ∧
              (acc * 64 + (b - 128) < 55296 ∨ 57344 ≤ acc * 64 + (b - 128)) then
            Option.map (fun cs => Char.ofNat (acc * 64 + (b - 128)) :: cs)
              (utf8_loop rest 0 0 0)
          else none
        else utf8_loop rest (need - 1) (acc * 64 + (b - 128)) mn
      else none

/-- Modelled from the spec: UTF-8 decoding of a byte sequence. -/
def utf8DecodeBytes (bs : List Nat) : Option (List Char) := utf8_loop bs 0 0 0

/-- Every valid Lean character is below the surrogate block or above it and
below 1114112; this is the validity invariant carried by Char. -/
theorem char_toNat_valid (c : Char) :
    c.toNat < 55296 ∨ (57343 < c.toNat ∧ c.toNat < 1114112) := by
  have h := c.valid
  simp [UInt32.isValidChar, Nat.isValidChar] at h
  have : c.toNat = c.val.toNat := rfl
  omega

/-- All bytes produced by the UTF-8 encoder are bytes. -/
theorem utf8EncodeChar_lt_256 (c : Char) : ∀ b ∈ utf8EncodeChar c.toNat, b < 256 := by
  have hv := char_toNat_valid c
  intro b hb
  rw [utf8EncodeChar] at hb
  split at hb
  · simp at hb
    omega
  · split at hb
    · simp at hb
      omega
    · split at hb
      · simp at hb
        omega
      · simp at hb
        omega

theorem utf8Encode_lt_256 (cs : List Char) : ∀ b ∈ utf8Encode cs, b < 256 := by
  intro b hb
  simp only [utf8Encode, List.mem_flatMap] at hb
  obtain ⟨c, _, hbc⟩ := hb
  exact utf8EncodeChar_lt_256 c b hbc

/-- An ASCII space byte only arises from an ASCII space character. -/
theorem utf8EncodeChar_space (c : Char) (h : 32 ∈ utf8EncodeChar c.toNat) : c = ' ' := by
  rw [utf8EncodeChar] at h
  split at h
  · simp at h
    have : Char.ofNat c.toNat = Char.ofNat 32 := by rw [h]
    rwa [Char.ofNat_toNat] at this
  · split at h
    · simp at h
      omega
    · split at h
      · simp at h
        omega
      · simp at h
        omega

theorem utf8_loop_ascii (b : Nat) (h : b < 128) (T : List Nat) :
    utf8_loop (b :: T) 0 0 0 =
      Option.map (fun cs => Char.ofNat b :: cs) (utf8_loop T 0 0 0) := by
  simp [utf8_loop, h]

theorem utf8_loop_lead2 (b : Nat) (h : 194 ≤ b) (hb : b < 224) (T : List Nat) :
    utf8_loop (b :: T) 0 0 0 = utf8_loop T 1 (b - 192) 128 := by
  rw [utf8_loop]
  rw [if_pos rfl, if_neg (by omega), if_neg (by omega), if_pos hb]

theorem utf8_loop_lead3 (b : Nat) (h : 224 ≤ b) (hb : b < 240) (T : List Nat) :
    utf8_loop (b :: T) 0 0 0 = utf8_loop T 2 (b - 224) 2048 := by
  rw [utf8_loop]
  rw [if_pos rfl, if_neg (by omega), if_neg (by omega), if_neg (by omega), if_pos hb]

theorem utf8_loop_lead4 (b : Nat) (h : 240 ≤ b) (hb : b < 245) (T : List Nat) :
    utf8_loop (b :: T) 0 0 0 = utf8_loop T 3 (b - 240) 65536 := by
  rw [utf8_loop]
  rw [if_pos rfl, if_neg (by omega), if_neg (by omega), if_neg (by omega),
    if_neg (by omega), if_pos hb]

theorem utf8_loop_cont (b need acc mn : Nat) (hb : 128 ≤ b) (hb2 : b < 192)
    (hn : 2 ≤ need) (T : List Nat) :
    utf8_loop (b :: T) need acc mn = utf8_loop T (need - 1) (acc * 64 + (b - 128)) mn := by
  rw [utf8_loop]
  rw [if_neg (by omega), if_pos ⟨hb, hb2⟩, if_neg (by omega)]

theorem utf8_loop_fin (b acc mn : Nat) (hb : 128 ≤ b) (hb2 : b < 192)
    (hok : mn ≤ acc * 64 + (b - 128) ∧ acc * 64 + (b - 128) < 1114112 ∧
      (acc * 64 + (b - 128) < 55296 ∨ 57344 ≤ acc * 64 + (b - 128))) (T : List Nat) :
    utf8_loop (b :: T) 1 acc mn =
      Option.map (fun cs => Char.ofNat (acc * 64 + (b - 128)) :: cs) (utf8_loop T 0 0 0) := by
  rw [utf8_loop]
  rw [if_neg (by omega), if_pos ⟨hb, hb2⟩, if_pos rfl, if_pos hok]

/-- UTF-8 decoding inverts UTF-8 encoding. -/
theorem utf8_loop_encode : ∀ cs : List Char, utf8_loop (utf8Encode cs) 0 0 0 = some cs
  | [] => rfl
  | c :: cs => by
      have ih := utf8_loop_encode cs
      have hv := char_toNat_valid c
      have hflat : utf8Encode (c :: cs) = utf8EncodeChar c.toNat ++ utf8Encode cs := rfl
      rw [hflat, utf8EncodeChar]
      by_cases h1 : c.toNat < 128
      · rw [if_pos h1]
        show utf8_loop (c.toNat :: utf8Encode cs) 0 0 0 = some (c :: cs)
        rw [utf8_loop_ascii _ h1, ih, Option.map_some', Char.ofNat_toNat]
      · rw [if_neg h1]
        by_cases h2 : c.toNat < 2048
        · rw [if_pos h2]
          show utf8_loop ((192 + c.toNat / 64) :: (128 + c.toNat % 64) :: utf8Encode cs)
            0 0 0 = some (c :: cs)
          rw [utf8_loop_lead2 _ (by omega) (by omega),
            utf8_loop_fin _ _ _ (by omega) (by omega) (by omega), ih, Option.map_some']
          have he : (192 + c.toNat / 64 - 192) * 64 + (128 + c.toNat % 64 - 128) =
              c.toNat := by omega
          rw [he, Char.ofNat_toNat]
        · rw [if_neg h2]
          by_cases h3 : c.toNat < 65536
          · rw [if_pos h3]
            show utf8_loop ((224 + c.toNat / 4096) :: (128 + c.toNat / 64 % 64) ::
              (128 + c.toNat % 64) :: utf8Encode cs) 0 0 0 = some (c :: cs)
            rw [utf8_loop_lead3 _ (by omega) (by omega),
              utf8_loop_cont _ _ _ _ (by omega) (by omega) (by omega),
              utf8_loop_fin _ _ _ (by omega) (by omega) (by omega), ih, Option.map_some']
            have he : ((224 + c.toNat / 4096 - 224) * 64 + (128 + c.toNat / 64 % 64 - 128)) *
                64 + (128 + c.toNat % 64 - 128) = c.toNat := by omega
            rw [he, Char.ofNat_toNat]
          · rw [if_neg h3]
            show utf8_loop ((240 + c.toNat / 262144) :: (128 + c.toNat / 4096 % 64) ::
              (128 + c.toNat / 64 % 64) :: (128 + c.toNat % 64) :: utf8Encode cs) 0 0 0 =
              some (c :: cs)
            rw [utf8_loop_lead4 _ (by omega) (by omega),
              utf8_loop_cont _ _ _ _ (by omega) (by omega) (by omega),
              utf8_loop_cont _ _ _ _ (by omega) (by omega) (by omega),
              utf8_loop_fin _ _ _ (by omega) (by omega) (by omega), ih, Option.map_some']
            have he : (((240 + c.toNat / 262144 - 240) * 64 +
                (128 + c.toNat / 4096 % 64 - 128)) * 64 +
                (128 + c.toNat / 64 % 64 - 128)) * 64 + (128 + c.toNat % 64 - 128) =
                c.toNat := by omega
            rw [he, Char.ofNat_toNat]

theorem utf8Decode_encode (cs : List Char) : utf8DecodeBytes (utf8Encode cs) = some cs :=
  utf8_loop_encode cs

example : utf8DecodeBytes (utf8Encode "aé€😀".data) = some "aé€😀".data := by decide

/-! ## JSON serialization (createPricePointID.py, lines 27-35)

The source builds a Python dict with the keys s, t, p in that insertion
order, serializes it with json.dumps under the default settings (which emit
one space after each colon and comma and escape every character outside
[32, 126] with the default ensure_ascii behaviour), then removes every
space character with str.replace. -/

/-- The sixteen lowercase hex digit characters used by the %04x format. -/
def hexChars : List Char := "0123456789abcdef".data

/-- One hex digit character (arguments are always below 16). -/
def hexDig (n : Nat) : Char := hexChars.getD n '0'

/-- The four hex digits of the %04x format of a value below 65536. -/
def hex4 (n : Nat) : List Char :=
  [hexDig (n / 4096 % 16), hexDig (n / 256 % 16), hexDig (n / 16 % 16), hexDig (n % 16)]

/-- The escape of one character in the json.dumps ensure_ascii string
encoder: the two JSON specials and the five short control escapes first,
characters in [32, 126] literally, every other character as a 4-digit
unicode escape, split into a surrogate pair above 65535. -/
def pyEscChar (c : Char) : List Char :=
  if c = '"' then ['\\', '"']
  else if c = '\\' then ['\\', '\\']
  else if c = '\n' then ['\\', 'n']
  else if c = '\r' then ['\\', 'r']
  else if c = '\t' then ['\\', 't']
  else if c = '\x08' then ['\\', 'b']
  else if c = '\x0c' then ['\\', 'f']
  else if 32 ≤ c.toNat ∧ c.toNat ≤ 126 then [c]
  else if c.toNat < 65536 then '\\' :: 'u' :: hex4 c.toNat
  else ('\\' :: 'u' :: hex4 (55296 + (c.toNat - 65536) / 1024)) ++
    ('\\' :: 'u' :: hex4 (56320 + (c.toNat - 65536) % 1024))

/-- A serialized JSON string literal: quote, escaped content, quote. -/
def pyEscString (cs : List Char) : List Char := '"' :: cs.flatMap pyEscChar ++ ['"']

/-- The json.dumps output for the dict of createPricePointID.py line 28,
with the default separators (one space after each colon and comma). -/
def pyDumpsChars (a b c : List Char) : List Char :=
  ['\x7b', '"', 's', '"', ':', ' '] ++ pyEscString a ++
    [',', ' ', '"', 't', '"', ':', ' '] ++ pyEscString b ++
    [',', ' ', '"', 'p', '"', ':', ' '] ++ pyEscString c ++ ['\x7d']

/-- Models str.replace applied to the space character and the empty string
(line 33): every space character of the text is removed. -/
def removeSpaces (cs : List Char) : List Char := cs.filter (fun c => c != ' ')

/-- The JSON text whose UTF-8 bytes encode_json_to_base64 encodes: the
json.dumps output with all spaces removed. -/
def jsonTextChars (s t p : String) : List Char :=
  removeSpaces (pyDumpsChars s.data t.data p.data)

/-- Models encode_json_to_base64 from createPricePointID.py (lines 14-37). -/
def encode_json_to_base64 (s t p : String) : String :=
  base64url_encode (utf8Encode (jsonTextChars s t p))

/-- The minimal three-key serialization the specification describes: no
whitespace at all, keys s, t, p in order, values escaped as JSON strings. -/
def minDumpsChars (a b c : List Char) : List Char :=
  ['\x7b', '"', 's', '"', ':'] ++ pyEscString a ++
    [',', '"', 't', '"', ':'] ++ pyEscString b ++
    [',', '"', 'p', '"', ':'] ++ pyEscString c ++ ['\x7d']

/-! ## JSON parsing (modelled from the spec)

The decode direction of the specification parses the decoded JSON text and
recovers the triple.  The source repository contains no JSON parser (only
the encoder), so the parser below is modelled from the spec: it accepts
exactly the minimal three-key object shape the encoder produces, with the
standard JSON string escapes including surrogate pairs.  Since a Lean
character cannot carry a lone surrogate code point, unpaired surrogate
escapes are rejected. -/

/-- Value of a hex digit character, both cases accepted. -/
def hexVal (c : Char) : Option Nat :=
  if '0' ≤ c ∧ c ≤ '9' then some (c.toNat - 48)
  else if 'a' ≤ c ∧ c ≤ 'f' then some (c.toNat - 87)
  else if 'A' ≤ c ∧ c ≤ 'F' then some (c.toNat - 55)
  else none

/-- JSON string body scanner, one character per step.  mode 0 is plain text,
mode 1 follows a backslash, mode 2 is inside a 4-digit hex escape with
hexLeft digits still expected and hexAcc accumulated; high is a pending
high surrogate value awaiting its low half (0 when none is pending).  The
scan ends successfully at an unescaped quote, returning the decoded content
and the unconsumed remainder. -/
def pStr : List Char → Nat → Nat → Nat → Nat → Option (List Char × List Char)
  | [], _, _, _, _ => none
  | ch :: rest, mode, hexLeft, hexAcc, high =>
    if mode = 0 then
      if high = 0 then
        if ch = '"' then some ([], rest)
        else if ch = '\\' then pStr rest 1 0 0 0
        else if ch.toNat < 32 then none
        else Option.map (fun pr => (ch :: pr.1, pr.2)) (pStr rest 0 0 0 0)
      else
        if ch = '\\' then pStr rest 1 0 0 high else none
    else if mode = 1 then
      if ch = 'u' then pStr rest 2 4 0 high
      else if high = 0 then
        if ch = '"' then Option.map (fun pr => ('"' :: pr.1, pr.2)) (pStr rest 0 0 0 0)
        else if ch = '\\' then Option.map (fun pr => ('\\' :: pr.1, pr.2)) (pStr rest 0 0 0 0)
        else if ch = '/' then Option.map (fun pr => ('/' :: pr.1, pr.2)) (pStr rest 0 0 0 0)
        else if ch = 'n' then Option.map (fun pr => ('\n' :: pr.1, pr.2)) (pStr rest 0 0 0 0)
        else if ch = 't' then Option.map (fun pr => ('\t' :: pr.1, pr.2)) (pStr rest 0 0 0 0)
        else if ch = 'r' then Option.map (fun pr => ('\r' :: pr.1, pr.2)) (pStr rest 0 0 0 0)
        else if ch = 'b' then Option.map (fun pr => ('\x08' :: pr.1, pr.2)) (pStr rest 0 0 0 0)
        else if ch = 'f' then Option.map (fun pr => ('\x0c' :: pr.1, pr.2)) (pStr rest 0 0 0 0)
        else none
      else none
    else
      match hexVal ch with
      | none => none
      | some d =>
        if 2 ≤ hexLeft then pStr rest 2 (hexLeft - 1) (hexAcc * 16 + d) high
        else
          if high = 0 then
            if 55296 ≤ hexAcc * 16 + d ∧ hexAcc * 16 + d < 56320 then
              pStr rest 0 0 0 (hexAcc * 16 + d)
            else if 56320 ≤ hexAcc * 16 + d ∧ hexAcc * 16 + d < 57344 then none
            else
              Option.map (fun pr => (Char.ofNat (hexAcc * 16 + d) :: pr.1, pr.2))
                (pStr rest 0 0 0 0)
          else
            if 56320 ≤ hexAcc * 16 + d ∧ hexAcc * 16 + d < 57344 then
              Option.map (fun pr =>
                  (Char.ofNat (65536 + (high - 55296) * 1024 + (hexAcc * 16 + d - 56320)) ::
                    pr.1, pr.2))
                (pStr rest 0 0 0 0)
            else none

/-- Consume one expected character. -/
def headIs (c : Char) (cs : List Char) : Option (List Char) :=
  match cs with
  | x :: rest => if x = c then some rest else none
  | [] => none

/-- Parse a JSON string literal: an opening quote, then the scanned body. -/
def parseJString (cs : List Char) : Option (List Char × List Char) :=
  (headIs '"' cs).bind (fun r => pStr r 0 0 0 0)

/-- Consume a serialized object key: quote, key character, quote, colon. -/
def expectKey (k : Char) (cs : List Char) : Option (List Char) :=
  (headIs '"' cs).bind (fun r1 => (headIs k r1).bind
    (fun r2 => (headIs '"' r2).bind (fun r3 => headIs ':' r3)))

/-- Modelled from the spec: parse the minimal three-key JSON object text
and recover the triple of strings. -/
def parseJson3 (cs : List Char) : Option (String × String × String) :=
  (headIs '\x7b' cs).bind fun r1 =>
  (expectKey 's' r1).bind fun r2 =>
  (parseJString r2).bind fun pr1 =>
  (headIs ',' pr1.2).bind fun r3 =>
  (expectKey 't' r3).bind fun r4 =>
  (parseJString r4).bind fun pr2 =>
  (headIs ',' pr2.2).bind fun r5 =>
  (expectKey 'p' r5).bind fun r6 =>
  (parseJString r6).bind fun pr3 =>
  (headIs '\x7d' pr3.2).bind fun r7 =>
  if r7 = [] then some (String.mk pr1.1, String.mk pr2.1, String.mk pr3.1) else none

/-- Modelled from the spec: the full decode direction of the identifier,
base64url decoding with re-added padding, then UTF-8 decoding, then JSON
parsing. -/
def decode_price_point_id (x : String) : Option (String × String × String) :=
  (base64url_decode x).bind fun bytes =>
    (utf8DecodeBytes bytes).bind fun chars => parseJson3 chars

example : jsonTextChars "A" "B" "C" =
    "\x7b\"s\":\"A\",\"t\":\"B\",\"p\":\"C\"\x7d".data := by decide

/-! ## Round trip of the JSON string escaper and the scanner -/

theorem hexVal_hexDig : ∀ d < 16, hexVal (hexDig d) = some d := by decide

theorem hexDig_mem (n : Nat) : hexDig n ∈ hexChars := by
  by_cases h : n < 16
  · rw [hexDig, List.getD_eq_getElem _ _ (by simpa [hexChars] using h)]
    exact List.getElem_mem _
  · have : hexChars.getD n '0' = '0' := by
      rw [List.getD_eq_getElem?_getD, List.getElem?_eq_none (by simp [hexChars]; omega)]
      rfl
    rw [hexDig, this]
    decide

theorem hexDig_ne_space (n : Nat) : hexDig n ≠ ' ' := by
  intro h
  have hm := hexDig_mem n
  rw [h] at hm
  revert hm
  decide

theorem pStr_quote (R : List Char) : pStr ('"' :: R) 0 0 0 0 = some ([], R) := by
  simp [pStr]

theorem pStr_bs (R : List Char) : pStr ('\\' :: R) 0 0 0 0 = pStr R 1 0 0 0 := by
  simp [pStr]

theorem pStr_lit (c : Char) (h1 : c ≠ '"') (h2 : c ≠ '\\') (h3 : 32 ≤ c.toNat)
    (R : List Char) :
    pStr (c :: R) 0 0 0 0 = Option.map (fun pr => (c :: pr.1, pr.2)) (pStr R 0 0 0 0) := by
  rw [pStr]
  rw [if_pos rfl, if_pos rfl, if_neg h1, if_neg h2, if_neg (by omega)]

theorem pStr_u (R : List Char) (high : Nat) :
    pStr ('u' :: R) 1 0 0 high = pStr R 2 4 0 high := by
  simp [pStr]

theorem pStr_pend_bs (R : List Char) (high : Nat) (hh : high ≠ 0) :
    pStr ('\\' :: R) 0 0 0 high = pStr R 1 0 0 high := by
  rw [pStr]
  rw [if_pos rfl, if_neg hh, if_pos rfl]

theorem pStr_hexstep (c : Char) (d hexLeft hexAcc high : Nat) (R : List Char)
    (hd : hexVal c = some d) (hl : 2 ≤ hexLeft) :
    pStr (c :: R) 2 hexLeft hexAcc high = pStr R 2 (hexLeft - 1) (hexAcc * 16 + d) high := by
  rw [pStr]
  simp [hd, hl]

theorem pStr_hexfin_plain (c : Char) (d hexAcc : Nat) (R : List Char)
    (hd : hexVal c = some d)
    (hno : hexAcc * 16 + d < 55296 ∨ 57344 ≤ hexAcc * 16 + d) :
    pStr (c :: R) 2 1 hexAcc 0 =
      Option.map (fun pr => (Char.ofNat (hexAcc * 16 + d) :: pr.1, pr.2))
        (pStr R 0 0 0 0) := by
  have h1 : ¬(55296 ≤ hexAcc * 16 + d ∧ hexAcc * 16 + d < 56320) := by omega
  have h2 : ¬(56320 ≤ hexAcc * 16 + d ∧ hexAcc * 16 + d < 57344) := by omega
  simp [pStr, hd, h1, h2]

theorem pStr_hexfin_high (c : Char) (d hexAcc : Nat) (R : List Char)
    (hd : hexVal c = some d)
    (hhi : 55296 ≤ hexAcc * 16 + d ∧ hexAcc * 16 + d < 56320) :
    pStr (c :: R) 2 1 hexAcc 0 = pStr R 0 0 0 (hexAcc * 16 + d) := by
  simp [pStr, hd, hhi]

theorem pStr_hexfin_low (c : Char) (d hexAcc high : Nat) (R : List Char)
    (hd : hexVal c = some d) (hh : high ≠ 0)
    (hlo : 56320 ≤ hexAcc * 16 + d ∧ hexAcc * 16 + d < 57344) :
    pStr (c :: R) 2 1 hexAcc high =
      Option.map (fun pr =>
          (Char.ofNat (65536 + (high - 55296) * 1024 + (hexAcc * 16 + d - 56320)) ::
            pr.1, pr.2))
        (pStr R 0 0 0 0) := by
  simp [pStr, hd, hh, hlo]

/-- Scanning the escape of one character prepends exactly that character. -/
theorem pStr_esc (c : Char) (R : List Char) :
    pStr (pyEscChar c ++ R) 0 0 0 0 =
      Option.map (fun pr => (c :: pr.1, pr.2)) (pStr R 0 0 0 0) := by
  have hv := char_toNat_valid c
  by_cases hq : c = '"'
  · subst hq
    simp [pyEscChar, pStr]
  by_cases hbs : c = '\\'
  · subst hbs
    simp [pyEscChar, pStr]
  by_cases hn : c = '\n'
  · subst hn
    simp [pyEscChar, pStr]
  by_cases hr : c = '\r'
  · subst hr
    simp [pyEscChar, pStr]
  by_cases htb : c = '\t'
  · subst htb
    simp [pyEscChar, pStr]
  by_cases hbb : c = '\x08'
  · subst hbb
    simp [pyEscChar, pStr]
  by_cases hf : c = '\x0c'
  · subst hf
    simp [pyEscChar, pStr]
  rw [pyEscChar, if_neg hq, if_neg hbs, if_neg hn, if_neg hr, if_neg htb,
    if_neg hbb, if_neg hf]
  by_cases hpr : 32 ≤ c.toNat ∧ c.toNat ≤ 126
  · rw [if_pos hpr]
    show pStr (c :: R) 0 0 0 0 = Option.map (fun pr => (c :: pr.1, pr.2)) (pStr R 0 0 0 0)
    exact pStr_lit c hq hbs hpr.1 R
  rw [if_neg hpr]
  by_cases hsm : c.toNat < 65536
  · rw [if_pos hsm]
    show pStr ('\\' :: 'u' :: hexDig (c.toNat / 4096 % 16) :: hexDig (c.toNat / 256 % 16) ::
      hexDig (c.toNat / 16 % 16) :: hexDig (c.toNat % 16) :: R) 0 0 0 0 =
      Option.map (fun pr => (c :: pr.1, pr.2)) (pStr R 0 0 0 0)
    rw [pStr_bs, pStr_u,
      pStr_hexstep _ _ _ _ _ _ (hexVal_hexDig _ (by omega)) (by omega),
      pStr_hexstep _ _ _ _ _ _ (hexVal_hexDig _ (by omega)) (by omega),
      pStr_hexstep _ _ _ _ _ _ (hexVal_hexDig _ (by omega)) (by omega),
      pStr_hexfin_plain _ _ _ _ (hexVal_hexDig _ (by omega)) (by omega)]
    have he : ((0 * 16 + c.toNat / 4096 % 16) * 16 + c.toNat / 256 % 16) * 16 +
        c.toNat / 16 % 16 = c.toNat / 16 := by omega
    have he2 : (((0 * 16 + c.toNat / 4096 % 16) * 16 + c.toNat / 256 % 16) * 16 +
        c.toNat / 16 % 16) * 16 + c.toNat % 16 = c.toNat := by omega
    simp only [he2, Char.ofNat_toNat]
  · rw [if_neg hsm]
    have hup : c.toNat < 1114112 := by omega
    have hm1 : 55296 + (c.toNat - 65536) / 1024 < 56320 := by omega
    show pStr ('\\' :: 'u' :: hexDig ((55296 + (c.toNat - 65536) / 1024) / 4096 % 16) ::
      hexDig ((55296 + (c.toNat - 65536) / 1024) / 256 % 16) ::
      hexDig ((55296 + (c.toNat - 65536) / 1024) / 16 % 16) ::
      hexDig ((55296 + (c.toNat - 65536) / 1024) % 16) ::
      ('\\' :: 'u' :: hexDig ((56320 + (c.toNat - 65536) % 1024) / 4096 % 16) ::
      hexDig ((56320 + (c.toNat - 65536) % 1024) / 256 % 16) ::
      hexDig ((56320 + (c.toNat - 65536) % 1024) / 16 % 16) ::
      hexDig ((56320 + (c.toNat - 65536) % 1024) % 16) :: []) ++ R) 0 0 0 0 =
      Option.map (fun pr => (c :: pr.1, pr.2)) (pStr R 0 0 0 0)
    simp only [List.cons_append, List.nil_append]
    rw [pStr_bs, pStr_u,
      pStr_hexstep _ _ _ _ _ _ (hexVal_hexDig _ (by omega)) (by omega),
      pStr_hexstep _ _ _ _ _ _ (hexVal_hexDig _ (by omega)) (by omega),
      pStr_hexstep _ _ _ _ _ _ (hexVal_hexDig _ (by omega)) (by omega),
      pStr_hexfin_high _ _ _ _ (hexVal_hexDig _ (by omega)) (by omega)]
    rw [pStr_pend_bs _ _ (by omega), pStr_u,
      pStr_hexstep _ _ _ _ _ _ (hexVal_hexDig _ (by omega)) (by omega),
      pStr_hexstep _ _ _ _ _ _ (hexVal_hexDig _ (by omega)) (by omega),
      pStr_hexstep _ _ _ _ _ _ (hexVal_hexDig _ (by omega)) (by omega),
      pStr_hexfin_low _ _ _ _ _ (hexVal_hexDig _ (by omega)) (by omega) (by omega)]
    have he : 65536 +
        ((((0 * 16 + (55296 + (c.toNat - 65536) / 1024) / 4096 % 16) * 16 +
          (55296 + (c.toNat - 65536) / 1024) / 256 % 16) * 16 +
          (55296 + (c.toNat - 65536) / 1024) / 16 % 16) * 16 +
          (55296 + (c.toNat - 65536) / 1024) % 16 - 55296) * 1024 +
        ((((0 * 16 + (56320 + (c.toNat - 65536) % 1024) / 4096 % 16) * 16 +
          (56320 + (c.toNat - 65536) % 1024) / 256 % 16) * 16 +
          (56320 + (c.toNat - 65536) % 1024) / 16 % 16) * 16 +
          (56320 + (c.toNat - 65536) % 1024) % 16 - 56320) = c.toNat := by omega
    simp only [he, Char.ofNat_toNat]

/-- Scanning the escaped content followed by a closing quote recovers the
content and the remainder. -/
theorem pStr_escList : ∀ (cs : List Char) (R : List Char),
    pStr (cs.flatMap pyEscChar ++ '"' :: R) 0 0 0 0 = some (cs, R)
  | [], R => by
      simp only [List.flatMap_nil, List.nil_append]
      exact pStr_quote R
  | c :: cs, R => by
      have ih := pStr_escList cs R
      rw [List.flatMap_cons, List.append_assoc, pStr_esc c _, ih]
      rfl

theorem headIs_self (c : Char) (r : List Char) : headIs c (c :: r) = some r := by
  simp [headIs]

theorem expectKey_self (k : Char) (r : List Char) :
    expectKey k ('"' :: k :: '"' :: ':' :: r) = some r := by
  simp [expectKey, headIs]

/-- Parsing a serialized JSON string literal recovers the content. -/
theorem parseJString_escString (cs : List Char) (R : List Char) :
    parseJString (pyEscString cs ++ R) = some (cs, R) := by
  have hshape : pyEscString cs ++ R = '"' :: (cs.flatMap pyEscChar ++ '"' :: R) := by
    simp [pyEscString]
  rw [hshape, parseJString, headIs_self]
  simpa using pStr_escList cs R

/-- Parsing the minimal three-key serialization recovers the three values. -/
theorem parseJson3_minDumps (a b c : List Char) :
    parseJson3 (minDumpsChars a b c) = some (String.mk a, String.mk b, String.mk c) := by
  have hshape : minDumpsChars a b c = '\x7b' :: '"' :: 's' :: '"' :: ':' ::
      (pyEscString a ++ (',' :: '"' :: 't' :: '"' :: ':' ::
        (pyEscString b ++ (',' :: '"' :: 'p' :: '"' :: ':' ::
          (pyEscString c ++ ('\x7d' :: [])))))) := by
    simp [minDumpsChars]
  rw [hshape, parseJson3, headIs_self, Option.some_bind, expectKey_self, Option.some_bind,
    parseJString_escString, Option.some_bind]
  rw [headIs_self, Option.some_bind, expectKey_self, Option.some_bind,
    parseJString_escString, Option.some_bind]
  rw [headIs_self, Option.some_bind, expectKey_self, Option.some_bind,
    parseJString_escString, Option.some_bind]
  rw [headIs_self, Option.some_bind, if_pos rfl]

/-! ## Space removal -/

theorem pyEscChar_no_space (c : Char) (hc : c ≠ ' ') : ∀ x ∈ pyEscChar c, x ≠ ' ' := by
  by_cases hq : c = '"'
  · subst hq
    decide
  by_cases hbs : c = '\\'
  · subst hbs
    decide
  by_cases hn : c = '\n'
  · subst hn
    decide
  by_cases hr : c = '\r'
  · subst hr
    decide
  by_cases ht : c = '\t'
  · subst ht
    decide
  by_cases hb : c = '\x08'
  · subst hb
    decide
  by_cases hf : c = '\x0c'
  · subst hf
    decide
  intro x hx
  rw [pyEscChar, if_neg hq, if_neg hbs, if_neg hn, if_neg hr, if_neg ht,
    if_neg hb, if_neg hf] at hx
  by_cases hpr : 32 ≤ c.toNat ∧ c.toNat ≤ 126
  · rw [if_pos hpr] at hx
    simp only [List.mem_singleton] at hx
    rwa [hx]
  rw [if_neg hpr] at hx
  by_cases hsm : c.toNat < 65536
  · rw [if_pos hsm] at hx
    simp only [hex4, List.mem_cons, List.not_mem_nil, or_false] at hx
    rcases hx with h | h | h | h | h | h <;>
      first
      | (rw [h]; exact hexDig_ne_space _)
      | (rw [h]; decide)
  · rw [if_neg hsm] at hx
    simp only [hex4, List.cons_append, List.nil_append, List.mem_cons,
      List.not_mem_nil, or_false] at hx
    rcases hx with h | h | h | h | h | h | h | h | h | h | h | h <;>
      first
      | (rw [h]; exact hexDig_ne_space _)
      | (rw [h]; decide)

theorem filter_escString (cs : List Char) (h : ' ' ∉ cs) :
    (pyEscString cs).filter (fun x => x != ' ') = pyEscString cs := by
  apply List.filter_eq_self.mpr
  intro x hx
  rw [pyEscString] at hx
  simp only [List.cons_append, List.mem_cons, List.mem_append] at hx
  rcases hx with h1 | h1 | h1
  · simp [h1]
  · simp only [List.mem_flatMap] at h1
    obtain ⟨c, hcmem, hcx⟩ := h1
    have hcne : c ≠ ' ' := fun he => h (he ▸ hcmem)
    simpa using pyEscChar_no_space c hcne x hcx
  · simp at h1
    simp [h1]

/-- Removing the spaces of the json.dumps output yields exactly the minimal
serialization, whenever the three values are space-free. -/
theorem removeSpaces_dumps (a b c : List Char) (ha : ' ' ∉ a) (hb : ' ' ∉ b)
    (hc : ' ' ∉ c) : removeSpaces (pyDumpsChars a b c) = minDumpsChars a b c := by
  have g1 : List.filter (fun x => x != ' ') ['\x7b', '"', 's', '"', ':', ' '] =
      ['\x7b', '"', 's', '"', ':'] := by decide
  have g2 : List.filter (fun x => x != ' ') [',', ' ', '"', 't', '"', ':', ' '] =
      [',', '"', 't', '"', ':'] := by decide
  have g3 : List.filter (fun x => x != ' ') [',', ' ', '"', 'p', '"', ':', ' '] =
      [',', '"', 'p', '"', ':'] := by decide
  have g4 : List.filter (fun x => x != ' ') ['\x7d'] = ['\x7d'] := by decide
  rw [removeSpaces, pyDumpsChars, minDumpsChars]
  rw [List.filter_append, List.filter_append, List.filter_append, List.filter_append,
    List.filter_append, List.filter_append]
  rw [g1, g2, g3, g4, filter_escString a ha, filter_escString b hb, filter_escString c hc]

/-- The full round trip for space-free field values. -/
theorem decode_encode_round (s t p : String) (hs : ' ' ∉ s.data) (ht : ' ' ∉ t.data)
    (hp : ' ' ∉ p.data) :
    decode_price_point_id (encode_json_to_base64 s t p) = some (s, t, p) := by
  rw [decode_price_point_id, encode_json_to_base64,
    base64url_decode_encode _ (utf8Encode_lt_256 _), Option.some_bind,
    utf8Decode_encode, Option.some_bind]
  rw [jsonTextChars, removeSpaces_dumps _ _ _ hs ht hp, parseJson3_minDumps]

/-- The serialized text never contains a space character. -/
theorem jsonText_no_space (s t p : String) : ' ' ∉ jsonTextChars s t p := by
  rw [jsonTextChars, removeSpaces]
  intro h
  have hmem := List.of_mem_filter h
  simp at hmem

/-- The serialized byte sequence never contains the ASCII space byte. -/
theorem utf8_no_space_byte (cs : List Char) (h : ' ' ∉ cs) : 32 ∉ utf8Encode cs := by
  intro hmem
  simp only [utf8Encode, List.mem_flatMap] at hmem
  obtain ⟨c, hc, hb⟩ := hmem
  exact h ((utf8EncodeChar_space c hb) ▸ hc)

/-- Every character the encoder emits is an alphabet character. -/
theorem encode_bytes_alphabet : ∀ d : List Nat, (∀ x ∈ d, x < 256) →
    ∀ ch ∈ base64url_encode_bytes d, ch ∈ b64chars
  | [], _ => by simp [base64url_encode_bytes]
  | [a], hd => by
      have ha := hd a (by simp)
      intro ch hch
      simp only [base64url_encode_bytes, List.mem_cons, List.not_mem_nil, or_false] at hch
      rcases hch with h | h <;> (rw [h]; exact b64c_mem _ (by omega))
  | [a, b], hd => by
      have ha := hd a (by simp)
      have hb := hd b (by simp)
      intro ch hch
      simp only [base64url_encode_bytes, List.mem_cons, List.not_mem_nil, or_false] at hch
      rcases hch with h | h | h <;> (rw [h]; exact b64c_mem _ (by omega))
  | a :: b :: c :: rest, hd => by
      have ha := hd a (by simp)
      have hb := hd b (by simp)
      have hc := hd c (by simp)
      have ih := encode_bytes_alphabet rest (fun x hx => hd x (by simp [hx]))
      intro ch hch
      simp only [base64url_encode_bytes, List.mem_cons] at hch
      rcases hch with h | h | h | h | h
      · rw [h]
        exact b64c_mem _ (by omega)
      · rw [h]
        exact b64c_mem _ (by omega)
      · rw [h]
        exact b64c_mem _ (by omega)
      · rw [h]
        exact b64c_mem _ (by omega)
      · exact ih ch h

/-! ## The CLI entry point (createPricePointID.py, lines 39-55)

The main function encodes the three required arguments, decodes the result
for verification and prints two lines: the first line formats the decoded
bytes value with an f-string, which renders a Python bytes object through
repr, so the JSON text appears wrapped as a bytes literal; the second line
is the encoded identifier itself. -/

/-- The quote character chosen by the repr of a Python bytes object: single
quote, unless the bytes contain a single quote and no double quote. -/
def pyBytesReprQuote (bs : List Nat) : Nat :=
  if 39 ∈ bs ∧ 34 ∉ bs then 34 else 39

/-- The repr rendering of one byte inside a bytes literal with quote q:
backslash and the quote character get a backslash escape, tab, newline and
carriage return their short escapes, printable ASCII bytes stand for
themselves, every other byte becomes a two-digit hex escape. -/
def reprByte (q b : Nat) : List Char :=
  if b = 92 then ['\\', '\\']
  else if b = q then ['\\', Char.ofNat q]
  else if b = 9 then ['\\', 't']
  else if b = 10 then ['\\', 'n']
  else if b = 13 then ['\\', 'r']
  else if 32 ≤ b ∧ b < 127 then [Char.ofNat b]
  else ['\\', 'x', hexDig (b / 16), hexDig (b % 16)]

/-- Models repr of a Python bytes object, which is what an f-string
interpolation of a bytes value prints. -/
def pyBytesRepr (bs : List Nat) : String :=
  String.mk ('b' :: Char.ofNat (pyBytesReprQuote bs) ::
    (bs.flatMap (reprByte (pyBytesReprQuote bs)) ++ [Char.ofNat (pyBytesReprQuote bs)]))

/-- The observable outcome of one CLI run: the stdout lines and the process
exit code. -/
structure CliOutput where
  lines : List String
  exitCode : Nat
deriving DecidableEq

/-- Models main from createPricePointID.py (lines 39-55) after argument
parsing: encode, decode the result for verification, print the decoded
bytes (through repr) and then the encoded string, then return control to
the interpreter, which exits with status 0.  A decode failure would be an
uncaught exception and exit status 1 with nothing printed; the theorems
below show that branch is never reached. -/
def cli_main (s t p : String) : CliOutput :=
  match base64url_decode (encode_json_to_base64 s t p) with
  | some bs => ⟨[pyBytesRepr bs, encode_json_to_base64 s t p], 0⟩
  | none => ⟨[], 1⟩

/-! ## updatePrice.py -/

/-- Models the ITEM_TYPES dict of get_item_type_definitions (updatePrice.py,
lines 24-43), as an association list of association lists. -/
def ITEM_TYPES : List (String × List (String × String)) :=
  [("apps",
    [("product_type", "app"),
     ("products_type", "apps"),
     ("prices_type", "appPrices"),
     ("price_point_type", "appPricePoint"),
     ("price_points_type", "appPricePoints"),
     ("schedule_type", "appPriceSchedules"),
     ("endpoint", "https://api.appstoreconnect.apple.com/v1/appPriceSchedules")]),
   ("inAppPurchases",
    [("product_type", "inAppPurchase"),
     ("products_type", "inAppPurchases"),
     ("prices_type", "inAppPurchasePrices"),
     ("price_point_type", "inAppPurchasePricePoint"),
     ("price_points_type", "inAppPurchasePricePoints"),
     ("schedule_type", "inAppPurchasePriceSchedules"),
     ("endpoint", "https://api.appstoreconnect.apple.com/v1/inAppPurchasePriceSchedules")])]

/-- Models get_item_type_definitions (updatePrice.py, lines 11-48): the
ValueError raised for an unknown item type is modelled as none. -/
def get_item_type_definitions (item_type : String) : Option (List (String × String)) :=
  ITEM_TYPES.lookup item_type

/-- One price row as passed to update_price_schedule by main: territory and
price point code, plus optional start and end dates. -/
structure Price where
  territory : String
  price : String
  startDate : Option String
  endDate : Option String
deriving DecidableEq

/-- Python truthiness of an optional string value: None and the empty
string are falsy. -/
def optTruthy : Option String → Bool
  | none => false
  | some v => v != ""

/-- Models get_price_point_id (updatePrice.py, lines 50-74): it runs
createPricePointID.py as a subprocess with the three values and returns the
last line of its standard output, which is the encoded identifier. -/
def get_price_point_id (app_id territory price_point : String) : String :=
  (cli_main app_id territory price_point).lines.getLastD ""

/-- One entry of the manualPrices relationship data list. -/
structure ManualPriceData where
  type : String
  id : String
deriving DecidableEq

/-- One entry of the included list: its relationships dict has the single
key relKey mapping to a data object with relPointsType and relPointId, and
attributes holds the optional startDate and endDate keys in that order. -/
structure IncludedPriceData where
  id : String
  type : String
  relKey : String
  relPointsType : String
  relPointId : String
  attributes : List (String × String)
deriving DecidableEq

/-- Lookup of a key that is always present in the dicts produced by
get_item_type_definitions; the default is never reached there. -/
def lookupD (types : List (String × String)) (k : String) : String :=
  (types.lookup k).getD ""

/-- Models prepare_price_data (updatePrice.py, lines 76-128). -/
def prepare_price_data (price : Price) (index : Nat) (types : List (String × String))
    (app_id : String) : ManualPriceData × IncludedPriceData :=
  (⟨lookupD types "prices_type", "$\x7bprice-" ++ toString index ++ "\x7d"⟩,
   ⟨"$\x7bprice-" ++ toString index ++ "\x7d", lookupD types "prices_type",
    lookupD types "price_point_type", lookupD types "price_points_type",
    get_price_point_id app_id price.territory price.price,
    (if optTruthy price.startDate then [("startDate", price.startDate.getD "")] else []) ++
      (if optTruthy price.endDate then [("endDate", price.endDate.getD "")] else [])⟩)

/-- The JSON:API payload update_price_schedule builds: the data object
carries the schedule type, the product relationship (under the key
product_key), the baseTerritory relationship and the manualPrices data
list; included carries the per-price objects. -/
structure PriceSchedulePayload where
  schedule_type : String
  product_key : String
  products_type : String
  product_id : String
  baseTerritory_id : String
  manualPrices : List ManualPriceData
  included : List IncludedPriceData
deriving DecidableEq

/-- Models update_price_schedule (updatePrice.py, lines 130-204) up to the
payload it builds.  The ValueError of get_item_type_definitions and the
IndexError raised by reading the first element of an empty prices list are
modelled as none; the token is only used in the HTTP header and dry_run
only chooses between printing and posting the payload, so neither affects
the payload. -/
def update_price_schedule (token app_id item_type : String) (prices : List Price)
    (dry_run : Bool) : Option PriceSchedulePayload :=
  match get_item_type_definitions item_type with
  | none => none
  | some types =>
    match prices with
    | [] => none
    | p0 :: _ =>
      some ⟨lookupD types "schedule_type", lookupD types "product_type",
        lookupD types "products_type", app_id, p0.territory,
        prices.enum.map (fun pr => (prepare_price_data pr.2 pr.1 types app_id).1),
        prices.enum.map (fun pr => (prepare_price_data pr.2 pr.1 types app_id).2)⟩

/-! ## The data model of the specification -/

/-- The CompositeKey value type of the specification: an ordered triple of
strings. -/
structure CompositeKey where
  s : String
  t : String
  p : String

/-- Encoding a CompositeKey is encoding its three fields. -/
def encodeKey (k : CompositeKey) : String := encode_json_to_base64 k.s k.t k.p

/-! ## Claims -/

set_option maxRecDepth 8192 in
/-- Claim C1 counterexample: at the input triple whose first field is a
single space, decoding the encoded identifier does not recover the triple;
the space is removed by the serializer, so decode returns the triple with
an empty first field instead. -/
theorem C1_counterexample :
    decode_price_point_id (encode_json_to_base64 " " "" "") = some ("", "", "") ∧
    decode_price_point_id (encode_json_to_base64 " " "" "") ≠ some (" ", "", "") := by
  constructor
  · decide
  · decide

/-- Claim C1 (amended): for all strings s, t, p that contain no ASCII space
character (including empty strings and strings containing quote, backslash
and non-ASCII Unicode characters), decoding the result of encode(s,t,p) by
base64url-decoding with re-added padding, UTF-8-decoding and JSON-parsing
recovers exactly the triple (s,t,p). -/
theorem C1_round_trip (s t p : String) (hs : ' ' ∉ s.data) (ht : ' ' ∉ t.data)
    (hp : ' ' ∉ p.data) :
    decode_price_point_id (encode_json_to_base64 s t p) = some (s, t, p) :=
  decode_encode_round s t p hs ht hp

theorem C1_witness :
    (' ' ∉ "ä\"x".data) ∧ (' ' ∉ "".data) ∧ (' ' ∉ "c😀".data) ∧
    decode_price_point_id (encode_json_to_base64 "ä\"x" "" "c😀") =
      some ("ä\"x", "", "c😀") :=
  ⟨by decide, by decide, by decide,
    C1_round_trip "ä\"x" "" "c😀" (by decide) (by decide) (by decide)⟩

/-- Claim C2 counterexample: at the input triple ("a b", "", ""), the
serialized JSON text maps the key s to "ab", not to the input "a b", so the
text does not map the three keys to the three inputs. -/
theorem C2_counterexample :
    String.mk (jsonTextChars "a b" "" "") =
      "\x7b\"s\":\"ab\",\"t\":\"\",\"p\":\"\"\x7d" ∧
    String.mk (jsonTextChars "a b" "" "") ≠
      "\x7b\"s\":\"a b\",\"t\":\"\",\"p\":\"\"\x7d" := by
  constructor
  · decide
  · decide

/-- Claim C2 (amended): for every triple of input strings, the serialized
byte sequence contains no ASCII space character; for every triple of
space-free input strings the JSON text is exactly the minimal three-key
serialization with keys s, t, p in that order mapped to the three inputs
(parsing it recovers the triple); in particular for ("A","B","C") the
serialized text is exactly the minimal object text. -/
theorem C2_serialization :
    (∀ s t p : String, 32 ∉ utf8Encode (jsonTextChars s t p)) ∧
    (∀ s t p : String, ' ' ∉ s.data → ' ' ∉ t.data → ' ' ∉ p.data →
      jsonTextChars s t p = minDumpsChars s.data t.data p.data ∧
      parseJson3 (jsonTextChars s t p) = some (s, t, p)) ∧
    String.mk (jsonTextChars "A" "B" "C") =
      "\x7b\"s\":\"A\",\"t\":\"B\",\"p\":\"C\"\x7d" := by
  refine ⟨fun s t p => utf8_no_space_byte _ (jsonText_no_space s t p),
    fun s t p hs ht hp => ?_, by decide⟩
  have h := removeSpaces_dumps s.data t.data p.data hs ht hp
  constructor
  · rw [jsonTextChars]
    exact h
  · rw [jsonTextChars, h, parseJson3_minDumps]

theorem C2_witness :
    jsonTextChars "x" "y" "z" = minDumpsChars "x".data "y".data "z".data ∧
    parseJson3 (jsonTextChars "x" "y" "z") = some ("x", "y", "z") :=
  C2_serialization.2.1 "x" "y" "z" (by decide) (by decide) (by decide)

/-- Claim C3: byte-level decoding is the exact inverse of byte-level
encoding; decode re-adds (-len % 4) padding characters and inverts the
padding-stripped encoder on every byte sequence. -/
theorem C3_byte_round_trip (d : List Nat) (hd : ∀ x ∈ d, x < 256) :
    base64url_decode (base64url_encode d) = some d :=
  base64url_decode_encode d hd

theorem C3_witness :
    (∀ x ∈ [0, 77, 255, 10], x < 256) ∧
    base64url_decode (base64url_encode [0, 77, 255, 10]) = some [0, 77, 255, 10] :=
  ⟨by decide, C3_byte_round_trip [0, 77, 255, 10] (by decide)⟩

/-- Claim C4: encoding is deterministic; two CompositeKeys with equal field
values encode to the identical output string.  The encoder of the source is
a pure function of its three arguments (it reads no other state), which the
embedding reflects, so determinism is equality of outputs at equal field
values. -/
theorem C4_deterministic (k1 k2 : CompositeKey) (hs : k1.s = k2.s)
    (ht : k1.t = k2.t) (hp : k1.p = k2.p) : encodeKey k1 = encodeKey k2 := by
  rw [encodeKey, encodeKey, hs, ht, hp]

theorem C4_witness :
    ((CompositeKey.mk "a" "b" "c").s = (CompositeKey.mk ("" ++ "a") "b" "c").s) ∧
    encodeKey (CompositeKey.mk "a" "b" "c") =
      encodeKey (CompositeKey.mk ("" ++ "a") "b" "c") :=
  ⟨by decide, C4_deterministic _ _ (by decide) (by decide) (by decide)⟩

/-- Claim C5: the URL-safe encoded output never contains PLUS, SLASH or the
PAD character; every output character lies in the padding-free base64url
alphabet. -/
theorem C5_urlsafe_alphabet (s t p : String) (c : Char)
    (hc : c ∈ (encode_json_to_base64 s t p).data) :
    c ≠ '+' ∧ c ≠ '/' ∧ c ≠ '=' := by
  have hall : ∀ x ∈ b64chars, x ≠ '+' ∧ x ≠ '/' ∧ x ≠ '=' := by decide
  exact hall c (encode_bytes_alphabet _ (utf8Encode_lt_256 _) c hc)

set_option maxRecDepth 8192 in
theorem C5_witness :
    'e' ∈ (encode_json_to_base64 "A" "B" "C").data ∧
    ('e' ≠ '+' ∧ 'e' ≠ '/' ∧ 'e' ≠ '=') :=
  ⟨by decide, C5_urlsafe_alphabet "A" "B" "C" 'e' (by decide)⟩

/-- Claim C6 counterexample: decoding the malformed input consisting of the
character BANG does return a result (the empty byte sequence); no error is
raised. -/
theorem C6_counterexample : (base64url_decode "!").isSome = true := by decide

/-- Claim C6 (amended): decoding an input containing a character outside
the selected base64 alphabet does not raise an InvalidAlphabetCharacter
error: the Python decoder silently discards every character outside the
alphabet, and decoding the input consisting of the character BANG returns
the empty byte sequence. -/
theorem C6_invalid_ignored :
    (∀ (c : Char) (L : List Char) (qp left pads : Nat), b64val c = none → c ≠ '=' →
      a2b_loop (c :: L) qp left pads = a2b_loop L qp left pads) ∧
    base64url_decode "!" = some [] := by
  constructor
  · intro c L qp left pads hv hne
    rw [a2b_loop, if_neg hne]
    simp [hv]
  · decide

theorem C6_witness :
    b64val '!' = none ∧ ('!' : Char) ≠ '=' ∧
    a2b_loop ['!'] 0 0 0 = a2b_loop [] 0 0 0 :=
  ⟨by decide, by decide, C6_invalid_ignored.1 '!' [] 0 0 0 (by decide) (by decide)⟩

set_option maxRecDepth 8192 in
/-- Claim C7: for s = app1, t = USA, p = Tier1, encoding and then decoding
with correctly re-added padding returns exactly the triple. -/
theorem C7_example_round_trip :
    decode_price_point_id (encode_json_to_base64 "app1" "USA" "Tier1") =
      some ("app1", "USA", "Tier1") := by
  decide

set_option maxRecDepth 8192 in
/-- Claim C8 counterexample: at the inputs ("A","B","C") the first printed
line is the Python repr of the decoded bytes value, the JSON text wrapped
in a bytes literal, and not the decoded JSON text itself. -/
theorem C8_counterexample :
    (cli_main "A" "B" "C").lines.head? =
      some "b\x27\x7b\"s\":\"A\",\"t\":\"B\",\"p\":\"C\"\x7d\x27" ∧
    (cli_main "A" "B" "C").lines.head? ≠
      some "\x7b\"s\":\"A\",\"t\":\"B\",\"p\":\"C\"\x7d" := by
  constructor
  · decide
  · decide

/-- Claim C8 (amended): for every valid invocation of the encoder CLI, the
program prints exactly two lines — first the Python repr of the decoded
bytes of the identifier (the JSON text wrapped in a bytes literal), then
the encoded identifier string — and exits successfully; no failing branch
is reachable in the encoding path. -/
theorem C8_cli_output (s t p : String) :
    cli_main s t p =
      CliOutput.mk [pyBytesRepr (utf8Encode (jsonTextChars s t p)),
        encode_json_to_base64 s t p] 0 := by
  have hd : base64url_decode (encode_json_to_base64 s t p) =
      some (utf8Encode (jsonTextChars s t p)) := by
    rw [encode_json_to_base64]
    exact base64url_decode_encode _ (utf8Encode_lt_256 _)
  simp [cli_main, hd]

/-- The inner dict of ITEM_TYPES for apps, used to state the C9 witness. -/
def apps_type_defs : List (String × String) :=
  [("product_type", "app"),
   ("products_type", "apps"),
   ("prices_type", "appPrices"),
   ("price_point_type", "appPricePoint"),
   ("price_points_type", "appPricePoints"),
   ("schedule_type", "appPriceSchedules"),
   ("endpoint", "https://api.appstoreconnect.apple.com/v1/appPriceSchedules")]

/-- Claim C9: get_item_type_definitions raises ValueError (modelled none)
exactly when its argument is neither apps nor inAppPurchases, and for a
valid argument the returned dict carries all seven expected keys with
non-empty values. -/
theorem C9_item_type_definitions :
    (∀ it : String, get_item_type_definitions it = none ↔
      (it ≠ "apps" ∧ it ≠ "inAppPurchases")) ∧
    (∀ it d, get_item_type_definitions it = some d →
      ∀ k ∈ ["product_type", "products_type", "prices_type", "price_point_type",
        "price_points_type", "schedule_type", "endpoint"],
        ∃ v, d.lookup k = some v ∧ v ≠ "") := by
  constructor
  · intro it
    rw [get_item_type_definitions, ITEM_TYPES]
    by_cases h1 : it = "apps"
    · subst h1
      simp [List.lookup]
    by_cases h2 : it = "inAppPurchases"
    · subst h2
      simp [List.lookup]
    · simp [List.lookup, beq_eq_false_iff_ne.mpr h1, beq_eq_false_iff_ne.mpr h2, h1, h2]
  · intro it d hd k hk
    rw [get_item_type_definitions, ITEM_TYPES] at hd
    simp only [List.lookup] at hd
    split at hd
    · obtain rfl := Option.some.inj hd
      fin_cases hk <;> exact ⟨_, rfl, by decide⟩
    · split at hd
      · obtain rfl := Option.some.inj hd
        fin_cases hk <;> exact ⟨_, rfl, by decide⟩
      · exact absurd hd (by simp)

theorem C9_witness :
    get_item_type_definitions "apps" = some apps_type_defs ∧
    "product_type" ∈ ["product_type", "products_type", "prices_type", "price_point_type",
      "price_points_type", "schedule_type", "endpoint"] ∧
    ∃ v, apps_type_defs.lookup "product_type" = some v ∧ v ≠ "" :=
  ⟨by decide, by decide,
    C9_item_type_definitions.2 "apps" apps_type_defs (by decide) "product_type" (by decide)⟩

/-- Claim C10: update_price_schedule returns no payload on an empty prices
list (the first element is read unconditionally), and the payload it builds
for a non-empty list has manualPrices and included lists of the same length
as the prices list, the i-th manual entry and the i-th included entry carry
the identical id built from the index, and the baseTerritory relationship
id is the territory of the first price. -/
theorem C10_payload :
    (∀ token app_id item_type dry,
      update_price_schedule token app_id item_type [] dry = none) ∧
    (∀ token app_id item_type prices dry pl,
      update_price_schedule token app_id item_type prices dry = some pl →
      pl.manualPrices.length = prices.length ∧
      pl.included.length = prices.length ∧
      (∀ i, (h1 : i < pl.manualPrices.length) → (h2 : i < pl.included.length) →
        (pl.manualPrices.get ⟨i, h1⟩).id = "$\x7bprice-" ++ toString i ++ "\x7d" ∧
        (pl.included.get ⟨i, h2⟩).id = "$\x7bprice-" ++ toString i ++ "\x7d") ∧
      pl.baseTerritory_id = (prices.headD (Price.mk "" "" none none)).territory) := by
  constructor
  · intro token app_id item_type dry
    rw [update_price_schedule]
    split
    · rfl
    · rfl
  · intro token app_id item_type prices dry pl hpl
    rw [update_price_schedule] at hpl
    split at hpl
    · exact absurd hpl (by simp)
    · split at hpl
      · exact absurd hpl (by simp)
      · obtain rfl := Option.some.inj hpl
        refine ⟨by simp, by simp, fun i h1 h2 => ?_, rfl⟩
        constructor
        · rw [List.get_eq_getElem, List.getElem_map, List.getElem_enum]
          rfl
        · rw [List.get_eq_getElem, List.getElem_map, List.getElem_enum]
          rfl

set_option maxRecDepth 8192 in
theorem C10_witness :
    update_price_schedule "tok" "app1" "apps"
      [Price.mk "USA" "p1" none none, Price.mk "JPN" "p2" (some "2026-01-01") none]
      false = some (PriceSchedulePayload.mk "appPriceSchedules" "app" "apps" "app1" "USA"
        [ManualPriceData.mk "appPrices" "$\x7bprice-0\x7d",
         ManualPriceData.mk "appPrices" "$\x7bprice-1\x7d"]
        [IncludedPriceData.mk "$\x7bprice-0\x7d" "appPrices" "appPricePoint"
          "appPricePoints" (get_price_point_id "app1" "USA" "p1") [],
         IncludedPriceData.mk "$\x7bprice-1\x7d" "appPrices" "appPricePoint"
          "appPricePoints" (get_price_point_id "app1" "JPN" "p2")
          [("startDate", "2026-01-01")]]) ∧
    ((PriceSchedulePayload.mk "appPriceSchedules" "app" "apps" "app1" "USA"
        [ManualPriceData.mk "appPrices" "$\x7bprice-0\x7d",
         ManualPriceData.mk "appPrices" "$\x7bprice-1\x7d"]
        [IncludedPriceData.mk "$\x7bprice-0\x7d" "appPrices" "appPricePoint"
          "appPricePoints" (get_price_point_id "app1" "USA" "p1") [],
         IncludedPriceData.mk "$\x7bprice-1\x7d" "appPrices" "appPricePoint"
          "appPricePoints" (get_price_point_id "app1" "JPN" "p2")
          [("startDate", "2026-01-01")]]).manualPrices.length =
      ([Price.mk "USA" "p1" none none,
        Price.mk "JPN" "p2" (some "2026-01-01") none] : List Price).length) := by
  refine ⟨by rfl, ?_⟩
  exact (C10_payload.2 "tok" "app1" "apps" _ false _ (by rfl)).1
